import Mathlib

/-!
Verification of the presentation layer of `data_fingerprint_try`
(`src/data_fingerprint_try/server.py`).

The file embeds, as Lean functions, the string-parsing and display logic of
`server.py`:

* Python `str.split(sep)`, `str.strip()` and the builtin `float(str)` as used
  by the threshold / grouping-column parsing at module level (upload tab lines
  137-151, example tab lines 207-217);
* the Python `dict` comprehension used to build the thresholds mapping;
* the display function `get_differences` (lines 42-101);
* the module-level control flow of the two tabs as event traces.

The comparator core (`data_fingerprint` package: `get_data_report`,
`get_number_of_row_differences`, `get_column_difference_ratio`,
`get_ratio_of_differences_per_source`, `DataReport`) is not part of this
repository's sources; the few core facts needed here are modelled from the
spec and are marked `Modelled from the spec:` in their doc comments.
-/

namespace DataFingerprintTry

/-- Python `str.split(sep)` for a one-character separator, on the character
list of the string.  Python's `split` on an explicit separator always returns
a non-empty list: `"".split(",") == [""]`, `",".split(",") == ["", ""]`. -/
def splitChar (sep : Char) : List Char → List (List Char)
  | [] => [[]]
  | c :: cs =>
    match splitChar sep cs with
    | [] => [[]]
    | h :: t => if c = sep then [] :: h :: t else (c :: h) :: t

/-- Python `s.split(sep)` for a one-character separator, producing strings. -/
def pySplit (sep : Char) (s : String) : List String :=
  (splitChar sep s.data).map String.mk

/-- Python `str.strip()` on a character list: remove leading and trailing
whitespace.  (Python strips all Unicode whitespace; the entries relevant here
only ever carry ASCII whitespace, which `Char.isWhitespace` covers.) -/
def stripList (l : List Char) : List Char :=
  ((l.dropWhile Char.isWhitespace).reverse.dropWhile Char.isWhitespace).reverse

/-- Python `s.strip()`. -/
def pyStrip (s : String) : String :=
  String.mk (stripList s.data)

/-- The result of Python's builtin `float(str)` when it succeeds.  A finite
result is kept unnormalised as the parsed components: `finite num scale exp`
denotes the exact value `num / 10 ^ scale * 10 ^ exp`, where `num` carries the
sign and all mantissa digits (integer and fractional), `scale` is the number
of fractional digits and `exp` the (signed) exponent part.  `float` can also
produce infinities and NaN from the keywords `inf` / `infinity` / `nan`.
(The numeric value is exact here; CPython would round it to the nearest
binary64 float, a distinction none of the verified claims depends on.) -/
inductive PyFloat where
  | finite (num : ℤ) (scale : ℕ) (exp : ℤ)
  | inf
  | neginf
  | nan
deriving DecidableEq

/-- The exact numeric value of a finite `float` result. -/
def PyFloat.toRat : PyFloat → Option ℚ
  | .finite num scale exp => some ((num : ℚ) / (10 : ℚ) ^ scale * (10 : ℚ) ^ exp)
  | _ => none

/-- Whether a `float` result is a non-negative number (NaN is not). -/
def PyFloat.isNonneg : PyFloat → Bool
  | .finite num _ _ => decide (0 ≤ num)
  | .inf => true
  | .neginf => false
  | .nan => false

/-- Consume a Python `digitpart` (`digit (["_"] digit)*`): digits with single
underscores allowed between digits.  Accumulates the value in `acc` and the
digit count in `n`; returns `(value, digit count, unconsumed rest)`. -/
def digitPartAux (acc : ℕ) (n : ℕ) : List Char → ℕ × ℕ × List Char
  | [] => (acc, n, [])
  | c :: cs =>
    if c.isDigit then digitPartAux (10 * acc + (c.toNat - 48)) (n + 1) cs
    else if c = '_' then
      match cs with
      | d :: cs2 =>
        if d.isDigit then digitPartAux (10 * acc + (d.toNat - 48)) (n + 1) cs2
        else (acc, n, c :: d :: cs2)
      | [] => (acc, n, [c])
    else (acc, n, c :: cs)

/-- A Python `digitpart` must start with a digit; on success returns its value,
its digit count and the unconsumed rest of the input. -/
def parseDigitPart (l : List Char) : Option (ℕ × ℕ × List Char) :=
  match l with
  | c :: _ => if c.isDigit then some (digitPartAux 0 0 l) else none
  | [] => none

/-- Mantissa of a Python float literal: `digitpart`, `digitpart "." digitpart?`
or `"." digitpart`.  Returns `(digits value, number of fractional digits,
unconsumed rest)`. -/
def parseMantissa (l : List Char) : Option (ℕ × ℕ × List Char) :=
  match parseDigitPart l with
  | some (ip, _, r1) =>
    match r1 with
    | '.' :: r2 =>
      match parseDigitPart r2 with
      | some (fp, fn, r3) => some (ip * 10 ^ fn + fp, fn, r3)
      | none => some (ip, 0, r2)
    | _ => some (ip, 0, r1)
  | none =>
    match l with
    | '.' :: r2 =>
      match parseDigitPart r2 with
      | some (fp, fn, r3) => some (fp, fn, r3)
      | none => none
    | _ => none

/-- Optional exponent of a Python float literal: `("e" | "E") sign? digitpart`.
Absence of the marker yields exponent `0`; a marker not followed by digits is
an error. -/
def parseExponent (l : List Char) : Option (ℤ × List Char) :=
  match l with
  | c :: r =>
    if c = 'e' ∨ c = 'E' then
      let sgnr : Bool × List Char :=
        match r with
        | '+' :: rr => (false, rr)
        | '-' :: rr => (true, rr)
        | _ => (false, r)
      match parseDigitPart sgnr.2 with
      | some (ev, _, r2) => some (if sgnr.1 then -(ev : ℤ) else (ev : ℤ), r2)
      | none => none
    else some (0, l)
  | [] => some (0, [])

/-- Python's builtin `float(str)`: optional surrounding whitespace, optional
sign, then either one of the keywords `inf` / `infinity` / `nan`
(case-insensitive) or a decimal literal with optional fraction and exponent.
Returns `none` exactly when CPython raises `ValueError`. -/
def pyFloat (s : String) : Option PyFloat :=
  let l := stripList s.data
  let sgnl : Bool × List Char :=
    match l with
    | '+' :: r => (false, r)
    | '-' :: r => (true, r)
    | _ => (false, l)
  let low := sgnl.2.map Char.toLower
  if low = "inf".data ∨ low = "infinity".data then
    some (if sgnl.1 then PyFloat.neginf else PyFloat.inf)
  else if low = "nan".data then
    some PyFloat.nan
  else
    match parseMantissa sgnl.2 with
    | none => none
    | some (m, scale, r1) =>
      match parseExponent r1 with
      | none => none
      | some (e, r2) =>
        if r2 = [] then
          some (PyFloat.finite (if sgnl.1 then -(m : ℤ) else (m : ℤ)) scale e)
        else none

/-- Python `dict` assignment `m[k] = v` on an association list: an existing
key keeps its position but gets the new value, a new key is appended. -/
def dictInsert : List (String × PyFloat) → String × PyFloat → List (String × PyFloat)
  | [], kv => [kv]
  | kv0 :: rest, kv =>
    if kv0.1 = kv.1 then (kv0.1, kv.2) :: rest else kv0 :: dictInsert rest kv

/-- Python `dict` lookup `m[k]` on an association list (keys are unique). -/
def dictLookup : List (String × PyFloat) → String → Option PyFloat
  | [], _ => none
  | kv0 :: rest, k => if kv0.1 = k then some kv0.2 else dictLookup rest k

/-- Map a fallible function over a list, failing if any element fails.  This
is the observable behaviour of a Python comprehension whose element expression
may raise: either all elements evaluate and the comprehension yields the list
of results, or the first raising element aborts the whole statement. -/
def optionMap (f : α → Option β) : List α → Option (List β)
  | [] => some []
  | a :: l =>
    match f a, optionMap f l with
    | some b, some bl => some (b :: bl)
    | _, _ => none

/-- Last `some` produced by `g` over a list, scanning from the right. -/
def findSomeLast (g : α → Option β) : List α → Option β
  | [] => none
  | a :: l =>
    match findSomeLast g l with
    | some b => some b
    | none => g a

/-- Value of the last pair with the given key, if any. -/
def lookupLast : List (String × PyFloat) → String → Option PyFloat
  | [], _ => none
  | kv :: rest, k =>
    match lookupLast rest k with
    | some v => some v
    | none => if kv.1 = k then some kv.2 else none

/-- The comma-separated, individually stripped entries of a user-supplied
threshold string: `[threshold.strip() for threshold in s.split(",")]`
(server.py lines 144-146 and 212). -/
def strippedEntries (s : String) : List String :=
  (pySplit ',' s).map pyStrip

/-- The non-empty stripped entries, i.e. those the dict comprehension's
`if threshold != ""` filter keeps (server.py lines 147-151 and 213-217). -/
def entriesNE (s : String) : List String :=
  (strippedEntries s).filter (fun e => e != "")

/-- One threshold entry, per the dict comprehension's element expressions
`threshold.split("=")[0]` and `float(threshold.split("=")[1])` (server.py
lines 148 and 214): the key is the text before the first `=`, the value is
`float` of the text between the first and second `=`; a missing `=`
(`IndexError`) or a non-numeric value (`ValueError`) raises, i.e. is `none`. -/
def parseThresholdEntry (e : String) : Option (String × PyFloat) :=
  match pySplit '=' e with
  | k :: v :: _ => (pyFloat v).map (fun q => (k, q))
  | _ => none

/-- The full threshold parsing of server.py lines 144-151 (and identically
212-217): split on commas, strip, drop empty entries, then build a `dict`
from the parsed entries; `none` when any entry raises. -/
def parseThresholds (s : String) : Option (List (String × PyFloat)) :=
  (optionMap parseThresholdEntry (entriesNE s)).map
    (fun kvs => kvs.foldl dictInsert [])

/-- The grouping-columns parsing of server.py lines 138-142 (and identically
208-210): split on commas and strip each name; if the result is exactly
`[""]` the Python code replaces it by `None` (here `none`). -/
def parseGroupingColumns (s : String) : Option (List String) :=
  let cols := (pySplit ',' s).map pyStrip
  if cols = [""] then none else some cols

/-- A stripped threshold entry of the shape the spec calls `column=value`:
exactly one `=`, with a right-hand side `float` accepts. -/
def entryWellFormed (e : String) : Bool :=
  match pySplit '=' e with
  | [_, v] => (pyFloat v).isSome
  | _ => false

/-- A malformed stripped threshold entry: missing `=`, or a right-hand side
(the text between the first and second `=`) that `float` rejects. -/
def malformedEntry (e : String) : Bool :=
  match pySplit '=' e with
  | _ :: v :: _ => !(pyFloat v).isSome
  | _ => true

/-- Spec-side reading of the threshold string (§6: "threshold string in
`column=value` comma-separated form" parsed "into a mapping from each column
name to the numeric value of its right-hand side"): the value associated to
column `k` is `float` of the right-hand side of the last entry whose text
before the first `=` is `k`. -/
def specLastRHS (s : String) (k : String) : Option PyFloat :=
  findSomeLast
    (fun e =>
      match pySplit '=' e with
      | k2 :: v :: _ => if k2 = k then pyFloat v else none
      | _ => none)
    (entriesNE s)

/-- Modelled from the spec: the `DataReport` of the `data_fingerprint` core
(spec §3) together with the alignment tallies its metric derivations read
(spec §4.4-4.5); the core's source is not part of this repository.
`matched_pairs` counts aligned pairs, `differing_pairs` those among them that
differ, `unmatched0` / `unmatched1` the rows of each source without a
counterpart.  `source_ratios` and `group_ratios` stand for the per-source and
per-grouping-value ratio breakdowns, which the verified claims never inspect
numerically. -/
structure DataReport where
  df0_name : String
  df1_name : String
  df0_length : ℕ
  df1_length : ℕ
  matched_pairs : ℕ
  differing_pairs : ℕ
  unmatched0 : ℕ
  unmatched1 : ℕ
  source_ratios : List (String × ℚ)
  group_ratios : List (String × ℚ)
deriving DecidableEq

/-- The spec's accounting invariants for a report (§4.4, §8): differing pairs
are among the matched pairs, and
`matched_pairs * 2 + unmatched_in_A + unmatched_in_B = df0_length + df1_length`
(no row is silently dropped). -/
def DataReport.valid (r : DataReport) : Prop :=
  r.differing_pairs ≤ r.matched_pairs ∧
    2 * r.matched_pairs + r.unmatched0 + r.unmatched1 = r.df0_length + r.df1_length

/-- Modelled from the spec (§4.5): "Total row differences: count of row-level
entries marked differing (matched-but-different pairs + all unmatched rows
from both sides)"; a pure derivation over the report. -/
def get_number_of_row_differences (r : DataReport) : ℕ :=
  r.differing_pairs + r.unmatched0 + r.unmatched1

/-- Modelled from the spec (§4.5): the per-grouping-column-value
difference-ratio breakdown; the claims verified here only concern when it is
invoked, not its numeric content. -/
def get_column_difference_ratio (r : DataReport) : List (String × ℚ) :=
  r.group_ratios

/-- Modelled from the spec (§4.5): the per-source difference-ratio breakdown;
the claims verified here never inspect its numeric content. -/
def get_ratio_of_differences_per_source (r : DataReport) : List (String × ℚ) :=
  r.source_ratios

/-- One widget rendered by `get_differences` (server.py lines 42-101), in
rendering order.  `metric` carries the displayed number of row differences
and the displayed delta ratio (as the exact percentage; the code additionally
rounds it to 4 decimal places for display, which preserves every property
proved about it here). -/
inductive DisplayItem where
  | rawReport
  | comparableColumns
  | columnDifferences
  | rowDifferences
  | metric (value : ℕ) (delta : ℚ)
  | ratioPerSource (ratios : List (String × ℚ))
  | ratioPerColumn (ratios : List (String × ℚ))
  | warningMsg (msg : String)
deriving DecidableEq

/-- The `total_rows` denominator of server.py lines 63-67:
`df0_length + df1_length if df0_length + df1_length > 0 else 1`. -/
def total_rows (r : DataReport) : ℕ :=
  if 0 < r.df0_length + r.df1_length then r.df0_length + r.df1_length else 1

/-- The display function `get_differences` of server.py lines 42-101, as the
ordered list of widgets it renders.  `captured_warnings` are the messages of
the warnings recorded by the surrounding `warnings.catch_warnings` block
while the report was generated.  Note that in the source the warning loop
(lines 99-101) is nested inside the `if grouping_columns is not None` branch
(line 88), as is the per-column ratio chart. -/
def get_differences (r : DataReport) (grouping_columns : Option (List String))
    (captured_warnings : List String) : List DisplayItem :=
  [DisplayItem.rawReport, DisplayItem.comparableColumns,
   DisplayItem.columnDifferences, DisplayItem.rowDifferences,
   DisplayItem.metric ( get_number_of_row_differences r)
     ((( get_number_of_row_differences r : ℚ)) / (total_rows r : ℚ) * 100),
   DisplayItem.ratioPerSource ( get_ratio_of_differences_per_source r)] ++
  (match grouping_columns with
   | some _ =>
     DisplayItem.ratioPerColumn ( get_column_difference_ratio r) ::
       captured_warnings.map DisplayItem.warningMsg
   | none => [])

/-- The inputs of the upload tab (server.py lines 106-135): two source names,
two optional uploaded files (their contents are irrelevant to the verified
claims, only their presence is observed), the grouping-columns string and the
thresholds string. -/
structure UploadInputs where
  df0_name : String
  df1_name : String
  df0_file : Option Unit
  df1_file : Option Unit
  grouping_str : String
  thresholds_str : String

/-- The inputs of the example tab (server.py lines 172-205): two source
names, two raw CSV texts, the grouping-columns string and the thresholds
string. -/
structure ExampleInputs where
  df0_name : String
  df1_name : String
  df0_data : String
  df1_data : String
  grouping_str : String
  thresholds_str : String

/-- An observable event of one button-triggered tab run.  `errorShown` is an
`st.error` call; `exceptionShown` is an uncaught Python exception, which
Streamlit renders as an error box in the app; `csvParsed` is a `pl.read_csv`
call; `reportGenerated` is the call of `get_differences` (and through it of
the core's `get_data_report`), carrying the exact arguments handed to the
core: the thresholds mapping, the grouping columns and the two names. -/
inductive RunEvent where
  | errorShown (msg : String)
  | exceptionShown
  | csvParsed
  | reportGenerated (thresholds : List (String × PyFloat))
      (grouping : Option (List String)) (name0 name1 : String)
deriving DecidableEq

/-- The upload tab's button handler (server.py lines 137-170) as its event
trace: parse the grouping columns (cannot raise), parse the thresholds (a
malformed entry raises before anything else happens), then check that both
files are uploaded, then that both names are non-empty — each failed check
shows an error and `st.stop()`s — and only then read the two CSVs and call
`get_differences`.  CSV reading is abstracted as succeeding; the claims
verified against this trace do not depend on `pl.read_csv` failures, which
could only remove the final `reportGenerated` event. -/
def uploadRun (inp : UploadInputs) : List RunEvent :=
  let grouping := parseGroupingColumns inp.grouping_str
  match parseThresholds inp.thresholds_str with
  | none => [RunEvent.exceptionShown]
  | some th =>
    if inp.df0_file.isNone || inp.df1_file.isNone then
      [RunEvent.errorShown "Please upload both data sources"]
    else if inp.df0_name = "" || inp.df1_name = "" then
      [RunEvent.errorShown "Please enter names for both data sources"]
    else
      [RunEvent.csvParsed, RunEvent.csvParsed,
       RunEvent.reportGenerated th grouping inp.df0_name inp.df1_name]

/-- The example tab's button handler (server.py lines 207-228) as its event
trace: identical parsing, but no file or name validation of any kind —
after parsing it goes straight to reading the CSV texts and calling
`get_differences`. -/
def exampleRun (inp : ExampleInputs) : List RunEvent :=
  let grouping := parseGroupingColumns inp.grouping_str
  match parseThresholds inp.thresholds_str with
  | none => [RunEvent.exceptionShown]
  | some th =>
    [RunEvent.csvParsed, RunEvent.csvParsed,
     RunEvent.reportGenerated th grouping inp.df0_name inp.df1_name]

theorem stringMk_data (s : String) : String.mk s.data = s := by
  cases s
  rfl

theorem splitChar_ne_nil (sep : Char) (l : List Char) : splitChar sep l ≠ [] := by
  cases l with
  | nil => simp [splitChar]
  | cons c cs =>
    simp only [splitChar]
    cases h : splitChar sep cs with
    | nil => simp
    | cons a t =>
      show ¬(if c = sep then [] :: a :: t else (c :: a) :: t) = []
      split <;> simp

theorem splitChar_of_not_mem {sep : Char} {l : List Char} (h : sep ∉ l) :
    splitChar sep l = [l] := by
  induction l with
  | nil => rfl
  | cons c cs ih =>
    have hc : ¬ c = sep := fun he => h (by rw [he]; exact List.mem_cons_self _ _)
    have hcs : sep ∉ cs := fun hm => h (List.mem_cons_of_mem _ hm)
    simp [splitChar, ih hcs, hc]

theorem two_le_length_splitChar {sep : Char} {l : List Char} (h : sep ∈ l) :
    2 ≤ (splitChar sep l).length := by
  induction l with
  | nil => cases h
  | cons c cs ih =>
    simp only [splitChar]
    cases hs : splitChar sep cs with
    | nil => exact absurd hs (splitChar_ne_nil sep cs)
    | cons a t =>
      show 2 ≤ (if c = sep then [] :: a :: t else (c :: a) :: t).length
      rcases List.mem_cons.mp h with he | hm
      · rw [if_pos he.symm]
        simp
      · have h2 := ih hm
        rw [hs] at h2
        simp only [List.length_cons] at h2 ⊢
        split
        · simp
        · simp only [List.length_cons]
          omega

theorem dictLookup_dictInsert (m : List (String × PyFloat)) (kv : String × PyFloat)
    (k : String) :
    dictLookup (dictInsert m kv) k = if kv.1 = k then some kv.2 else dictLookup m k := by
  induction m with
  | nil => simp [dictInsert, dictLookup]
  | cons kv0 rest ih =>
    simp only [dictInsert, dictLookup]
    split_ifs with h1 h2 h3 <;> simp_all [dictLookup]

theorem dictLookup_foldl (kvs : List (String × PyFloat)) (m0 : List (String × PyFloat))
    (k : String) :
    dictLookup (kvs.foldl dictInsert m0) k =
      (lookupLast kvs k).elim (dictLookup m0 k) some := by
  induction kvs generalizing m0 with
  | nil => simp [lookupLast]
  | cons kv rest ih =>
    simp only [List.foldl_cons, lookupLast]
    rw [ih]
    cases hres : lookupLast rest k with
    | some v => simp
    | none =>
      simp only [Option.elim]
      rw [dictLookup_dictInsert]
      split_ifs with h <;> simp

theorem optionMap_eq_none {f : α → Option β} {l : List α} {e : α} (he : e ∈ l)
    (hf : f e = none) : optionMap f l = none := by
  induction l with
  | nil => cases he
  | cons a l ih =>
    rcases List.mem_cons.mp he with rfl | hm
    · simp [optionMap, hf]
    · simp only [optionMap]
      rw [ih hm]
      cases f a <;> rfl

theorem optionMap_isSome {f : α → Option β} {l : List α} (h : ∀ e ∈ l, (f e).isSome) :
    ∃ bl, optionMap f l = some bl := by
  induction l with
  | nil => exact ⟨[], rfl⟩
  | cons a l ih =>
    obtain ⟨bl, hbl⟩ := ih (fun e he => h e (List.mem_cons_of_mem _ he))
    obtain ⟨b, hb⟩ := Option.isSome_iff_exists.mp (h a (List.mem_cons_self a l))
    exact ⟨b :: bl, by simp [optionMap, hb, hbl]⟩

theorem optionMap_mem {f : α → Option β} {l : List α} {bl : List β}
    (h : optionMap f l = some bl) {b : β} (hb : b ∈ bl) : ∃ a ∈ l, f a = some b := by
  induction l generalizing bl with
  | nil =>
    simp only [optionMap, Option.some.injEq] at h
    subst h
    cases hb
  | cons a l ih =>
    simp only [optionMap] at h
    cases hfa : f a with
    | none => rw [hfa] at h; simp at h
    | some b0 =>
      rw [hfa] at h
      cases hml : optionMap f l with
      | none => rw [hml] at h; simp at h
      | some bl0 =>
        rw [hml] at h
        simp only [Option.some.injEq] at h
        subst h
        rcases List.mem_cons.mp hb with rfl | hm
        · exact ⟨a, List.mem_cons_self _ _, hfa⟩
        · obtain ⟨a2, ha2, hfa2⟩ := ih hml hm
          exact ⟨a2, List.mem_cons_of_mem _ ha2, hfa2⟩

theorem lookupLast_optionMap {f : String → Option (String × PyFloat)} {l : List String}
    {kvs : List (String × PyFloat)} (h : optionMap f l = some kvs) (k : String) :
    lookupLast kvs k =
      findSomeLast (fun e => (f e).bind (fun kv => if kv.1 = k then some kv.2 else none))
        l := by
  induction l generalizing kvs with
  | nil =>
    simp only [optionMap, Option.some.injEq] at h
    subst h
    rfl
  | cons e l ih =>
    simp only [optionMap] at h
    cases hfe : f e with
    | none => rw [hfe] at h; simp at h
    | some kv =>
      rw [hfe] at h
      cases hml : optionMap f l with
      | none => rw [hml] at h; simp at h
      | some kvs0 =>
        rw [hml] at h
        simp only [Option.some.injEq] at h
        subst h
        simp only [lookupLast, findSomeLast]
        rw [ih hml]
        cases findSomeLast
            (fun e => (f e).bind fun kv => if kv.1 = k then some kv.2 else none) l with
        | some v => rfl
        | none => simp [hfe]

theorem findSomeLast_congr {g1 g2 : α → Option β} (h : ∀ a, g1 a = g2 a) (l : List α) :
    findSomeLast g1 l = findSomeLast g2 l := by
  induction l with
  | nil => rfl
  | cons a l ih =>
    simp only [findSomeLast]
    rw [ih, h a]

theorem bind_entry_eq (k e : String) :
    (parseThresholdEntry e).bind (fun kv => if kv.1 = k then some kv.2 else none) =
      (match pySplit '=' e with
       | k2 :: v :: _ => if k2 = k then pyFloat v else none
       | _ => none) := by
  simp only [parseThresholdEntry]
  cases hsp : pySplit '=' e with
  | nil => rfl
  | cons k2 t =>
    cases t with
    | nil => rfl
    | cons v rest =>
      cases hv : pyFloat v with
      | none => simp [hv]
      | some q => by_cases h : k2 = k <;> simp [hv, h]

theorem mem_dictInsert {m : List (String × PyFloat)} {kv kv' : String × PyFloat}
    (h : kv' ∈ dictInsert m kv) : kv' ∈ m ∨ kv' = kv := by
  induction m with
  | nil =>
    simp only [dictInsert, List.mem_singleton] at h
    exact Or.inr h
  | cons kv0 rest ih =>
    simp only [dictInsert] at h
    split_ifs at h with h0
    · rcases List.mem_cons.mp h with rfl | hm
      · right
        rw [h0]
      · left
        exact List.mem_cons_of_mem _ hm
    · rcases List.mem_cons.mp h with rfl | hm
      · left
        exact List.mem_cons_self _ _
      · rcases ih hm with h1 | h2
        · left
          exact List.mem_cons_of_mem _ h1
        · right
          exact h2

theorem mem_foldl_dictInsert {kvs m0 : List (String × PyFloat)} {kv' : String × PyFloat}
    (h : kv' ∈ kvs.foldl dictInsert m0) : kv' ∈ m0 ∨ kv' ∈ kvs := by
  induction kvs generalizing m0 with
  | nil => exact Or.inl h
  | cons kv rest ih =>
    simp only [List.foldl_cons] at h
    rcases ih h with h1 | h2
    · rcases mem_dictInsert h1 with h3 | h4
      · exact Or.inl h3
      · right
        rw [h4]
        exact List.mem_cons_self _ _
    · right
      exact List.mem_cons_of_mem _ h2

theorem parseThresholdEntry_isSome {e : String} (h : entryWellFormed e = true) :
    (parseThresholdEntry e).isSome := by
  unfold entryWellFormed at h
  unfold parseThresholdEntry
  cases hsp : pySplit '=' e with
  | nil => rw [hsp] at h; simp at h
  | cons k t =>
    cases t with
    | nil => rw [hsp] at h; simp at h
    | cons v rest =>
      rw [hsp] at h
      cases rest with
      | nil => simpa using h
      | cons x xs => simp at h

theorem dictLookup_parseThresholds {s : String} {m : List (String × PyFloat)}
    (hm : parseThresholds s = some m) (k : String) :
    dictLookup m k = specLastRHS s k := by
  simp only [parseThresholds] at hm
  cases hkvs : optionMap parseThresholdEntry (entriesNE s) with
  | none => rw [hkvs] at hm; simp at hm
  | some kvs =>
    rw [hkvs] at hm
    simp only [Option.map_some', Option.some.injEq] at hm
    subst hm
    rw [dictLookup_foldl, lookupLast_optionMap hkvs k,
      findSomeLast_congr (bind_entry_eq k) (entriesNE s)]
    unfold specLastRHS
    cases findSomeLast
        (fun e =>
          match pySplit '=' e with
          | k2 :: v :: _ => if k2 = k then pyFloat v else none
          | _ => none)
        (entriesNE s) with
    | none => rfl
    | some v => rfl

theorem reportGenerated_thresholds_upload {inp : UploadInputs}
    {th : List (String × PyFloat)} {g : Option (List String)} {a b : String}
    (h : RunEvent.reportGenerated th g a b ∈ uploadRun inp) :
    parseThresholds inp.thresholds_str = some th ∧
      g = parseGroupingColumns inp.grouping_str := by
  unfold uploadRun at h
  cases hth : parseThresholds inp.thresholds_str with
  | none => rw [hth] at h; simp at h
  | some th0 =>
    rw [hth] at h
    simp only at h
    split_ifs at h <;> simp_all

theorem reportGenerated_thresholds_example {inp : ExampleInputs}
    {th : List (String × PyFloat)} {g : Option (List String)} {a b : String}
    (h : RunEvent.reportGenerated th g a b ∈ exampleRun inp) :
    parseThresholds inp.thresholds_str = some th ∧
      g = parseGroupingColumns inp.grouping_str := by
  unfold exampleRun at h
  cases hth : parseThresholds inp.thresholds_str with
  | none => rw [hth] at h; simp at h
  | some th0 =>
    rw [hth] at h
    simp only at h
    simp_all

/-- C1: a threshold string whose stripped comma-separated entries are all
blank or of the form `column=value` with a numeric right-hand side is parsed
into a mapping sending each named column to `float` of the right-hand side of
its last entry; the empty string yields the empty mapping; and the thresholds
argument handed to the core's compare entry point in any tab run is exactly
this parsed mapping. -/
theorem threshold_parsing_wellformed (s : String)
    (hwf : ∀ e ∈ strippedEntries s, e = "" ∨ entryWellFormed e = true) :
    (∃ m, parseThresholds s = some m ∧ ∀ k, dictLookup m k = specLastRHS s k) ∧
    parseThresholds "" = some [] ∧
    (∀ (inp : UploadInputs) (th : List (String × PyFloat)) (g : Option (List String))
        (a b : String), RunEvent.reportGenerated th g a b ∈ uploadRun inp →
      parseThresholds inp.thresholds_str = some th) ∧
    (∀ (inp : ExampleInputs) (th : List (String × PyFloat)) (g : Option (List String))
        (a b : String), RunEvent.reportGenerated th g a b ∈ exampleRun inp →
      parseThresholds inp.thresholds_str = some th) := by
  refine ⟨?_, by decide, ?_, ?_⟩
  · have hall : ∀ e ∈ entriesNE s, (parseThresholdEntry e).isSome := by
      intro e he
      obtain ⟨hmem, hne⟩ := List.mem_filter.mp he
      rcases hwf e hmem with h0 | h1
      · rw [h0] at hne; simp at hne
      · exact parseThresholdEntry_isSome h1
    obtain ⟨kvs, hkvs⟩ := optionMap_isSome hall
    refine ⟨kvs.foldl dictInsert [], ?_, ?_⟩
    · simp [parseThresholds, hkvs]
    · intro k
      exact dictLookup_parseThresholds (by simp [parseThresholds, hkvs]) k
  · intro inp th g a b h
    exact (reportGenerated_thresholds_upload h).1
  · intro inp th g a b h
    exact (reportGenerated_thresholds_example h).1

theorem threshold_parsing_wellformed_witness :
    (∀ e ∈ strippedEntries "a=1, b=2", e = "" ∨ entryWellFormed e = true) ∧
    (∃ m, parseThresholds "a=1, b=2" = some m ∧
      ∀ k, dictLookup m k = specLastRHS "a=1, b=2" k) :=
  ⟨by decide, (threshold_parsing_wellformed "a=1, b=2" (by decide)).1⟩

/-- C10: an entry with more than one `=` keys on the text before the first
`=` and takes `float` of the text between the first and second `=`, silently
discarding the rest (`col=1=2` parses as `col ↦ 1`); and when two entries
name the same column, the mapping keeps the last occurrence's value
(`a=1,a=2` parses as `a ↦ 2`; in general every lookup in an accepted mapping
returns the last matching entry's value). -/
theorem threshold_extra_equals_and_last_wins :
    (∀ (e k v : String) (rest : List String), pySplit '=' e = k :: v :: rest →
      parseThresholdEntry e = (pyFloat v).map (fun q => (k, q))) ∧
    (∀ (s : String) (m : List (String × PyFloat)), parseThresholds s = some m →
      ∀ k, dictLookup m k = specLastRHS s k) ∧
    parseThresholds "col=1=2" = some [("col", PyFloat.finite 1 0 0)] ∧
    parseThresholds "a=1,a=2" = some [("a", PyFloat.finite 2 0 0)] := by
  refine ⟨?_, ?_, by decide, by decide⟩
  · intro e k v rest hsp
    simp [parseThresholdEntry, hsp]
  · intro s m hm k
    exact dictLookup_parseThresholds hm k

theorem threshold_extra_equals_and_last_wins_witness :
    pySplit '=' "x=3=9" = ["x", "3", "9"] ∧
    parseThresholdEntry "x=3=9" = (pyFloat "3").map (fun q => ("x", q)) :=
  ⟨by decide, threshold_extra_equals_and_last_wins.1 "x=3=9" "x" "3" ["9"] (by decide)⟩

/-- C5: a threshold string containing a malformed non-empty entry (missing
`=`, or a right-hand side `float` rejects) makes the parsing raise, so no
thresholds mapping is produced and no run with that string ever reaches the
core's compare entry point. -/
theorem malformed_threshold_never_reaches_core (s : String)
    (h : ∃ e ∈ strippedEntries s, e ≠ "" ∧ malformedEntry e = true) :
    parseThresholds s = none ∧
    (∀ inp : UploadInputs, inp.thresholds_str = s →
      ∀ th g a b, RunEvent.reportGenerated th g a b ∉ uploadRun inp) ∧
    (∀ inp : ExampleInputs, inp.thresholds_str = s →
      ∀ th g a b, RunEvent.reportGenerated th g a b ∉ exampleRun inp) := by
  obtain ⟨e, he, hne, hmal⟩ := h
  have hmem : e ∈ entriesNE s := List.mem_filter.mpr ⟨he, by simpa using hne⟩
  have hnone : parseThresholdEntry e = none := by
    unfold malformedEntry at hmal
    unfold parseThresholdEntry
    cases hsp : pySplit '=' e with
    | nil => rfl
    | cons k t =>
      cases t with
      | nil => rfl
      | cons v rest =>
        rw [hsp] at hmal
        cases hv : pyFloat v with
        | some q => simp [hv] at hmal
        | none => simp [hv]
  have hth : parseThresholds s = none := by
    simp [parseThresholds, optionMap_eq_none hmem hnone]
  refine ⟨hth, ?_, ?_⟩
  · intro inp hs th g a b hmem2
    unfold uploadRun at hmem2
    rw [hs, hth] at hmem2
    simp at hmem2
  · intro inp hs th g a b hmem2
    unfold exampleRun at hmem2
    rw [hs, hth] at hmem2
    simp at hmem2

theorem malformed_threshold_never_reaches_core_witness :
    (∃ e ∈ strippedEntries "col=abc", e ≠ "" ∧ malformedEntry e = true) ∧
    parseThresholds "col=abc" = none :=
  ⟨by decide, (malformed_threshold_never_reaches_core "col=abc" (by decide)).1⟩

/-- C6 (counterexample): the parser accepts `col=-1`, producing a mapping
whose value is the negative number −1, and that mapping is handed to the
core in a run — so the accepted values are not all non-negative. -/
theorem threshold_nonneg_counterexample :
    parseThresholds "col=-1" = some [("col", PyFloat.finite (-1) 0 0)] ∧
    (∃ q, (PyFloat.finite (-1) 0 0).toRat = some q ∧ q < 0) ∧
    RunEvent.reportGenerated [("col", PyFloat.finite (-1) 0 0)] none "n0" "n1" ∈
      exampleRun
        { df0_name := "n0", df1_name := "n1", df0_data := "x", df1_data := "y",
          grouping_str := "", thresholds_str := "col=-1" } := by
  refine ⟨by decide, ⟨-1, ?_, by norm_num⟩, by decide⟩
  simp [PyFloat.toRat]

/-- C6 (amended): every value in a thresholds mapping the presentation layer
passes to the core is exactly `float` of the right-hand side of one of the
string's entries — the parser performs no sign check, so negative values pass
through unchanged. -/
theorem threshold_values_unchecked (s : String) (m : List (String × PyFloat))
    (hm : parseThresholds s = some m) :
    ∀ kv ∈ m, ∃ e ∈ entriesNE s, parseThresholdEntry e = some kv := by
  intro kv hkv
  simp only [parseThresholds] at hm
  cases hkvs : optionMap parseThresholdEntry (entriesNE s) with
  | none => rw [hkvs] at hm; simp at hm
  | some kvs =>
    rw [hkvs] at hm
    simp only [Option.map_some', Option.some.injEq] at hm
    subst hm
    rcases mem_foldl_dictInsert hkv with h1 | h2
    · cases h1
    · exact optionMap_mem hkvs h2

theorem threshold_values_unchecked_witness :
    parseThresholds "col=-1" = some [("col", PyFloat.finite (-1) 0 0)] ∧
    (∃ e ∈ entriesNE "col=-1",
      parseThresholdEntry e = some ("col", PyFloat.finite (-1) 0 0)) :=
  ⟨by decide,
    threshold_values_unchecked "col=-1" [("col", PyFloat.finite (-1) 0 0)] (by decide)
      ("col", PyFloat.finite (-1) 0 0) (by decide)⟩

/-- C4 (counterexample): the dichotomy "empty string ↦ None, any other
string ↦ the stripped list" is false: the whitespace-only string `" "` is not
empty, yet the code passes `None` rather than the stripped list `[""]`. -/
theorem grouping_parsing_counterexample :
    ¬ (" " = "" ∨ parseGroupingColumns " " = some ((pySplit ',' " ").map pyStrip)) ∧
    parseGroupingColumns " " = none := by
  constructor
  · decide
  · decide

/-- C4 (amended): the parsed grouping argument is `None` exactly when the
comma-split, stripped name list is a single empty name — that is, when the
string has no comma and strips to empty (so for the empty string, but also
for whitespace-only strings); in every other case the passed list is the
comma-separated names with surrounding whitespace stripped, in input order;
and the grouping argument handed to the core in an upload run is exactly
this parsed value. -/
theorem grouping_parsing_amended (s : String) :
    (parseGroupingColumns s = none ↔ ¬ (',' ∈ s.data) ∧ pyStrip s = "") ∧
    (∀ l, parseGroupingColumns s = some l → l = (pySplit ',' s).map pyStrip) ∧
    (∀ inp : UploadInputs, inp.grouping_str = s →
      ∀ th g a b, RunEvent.reportGenerated th g a b ∈ uploadRun inp →
        g = parseGroupingColumns s) := by
  refine ⟨⟨?_, ?_⟩, ?_, ?_⟩
  · intro hnone
    have hcols : (pySplit ',' s).map pyStrip = [""] := by
      by_contra hne
      simp [parseGroupingColumns, hne] at hnone
    have hnc : ¬ (',' ∈ s.data) := by
      intro hcomma
      have h2 := two_le_length_splitChar hcomma
      have h3 : ((pySplit ',' s).map pyStrip).length = (splitChar ',' s.data).length := by
        simp [pySplit]
      rw [hcols] at h3
      simp at h3
      omega
    refine ⟨hnc, ?_⟩
    have h4 : pySplit ',' s = [s] := by
      simp [pySplit, splitChar_of_not_mem hnc, stringMk_data]
    rw [h4] at hcols
    simpa using hcols
  · rintro ⟨hnc, hstrip⟩
    have h4 : pySplit ',' s = [s] := by
      simp [pySplit, splitChar_of_not_mem hnc, stringMk_data]
    simp [parseGroupingColumns, h4, hstrip]
  · intro l hl
    simp only [parseGroupingColumns] at hl
    split_ifs at hl with h
    exact (Option.some_inj.mp hl).symm
  · intro inp hs th g a b hmem
    subst hs
    exact (reportGenerated_thresholds_upload hmem).2

theorem grouping_parsing_amended_witness :
    parseGroupingColumns "a, b" = some ["a", "b"] ∧
    ["a", "b"] = (pySplit ',' "a, b").map pyStrip :=
  ⟨by decide, (grouping_parsing_amended "a, b").2.1 ["a", "b"] (by decide)⟩

/-- A small concrete report used by witnesses: two one-row sources aligned
into a single differing pair. -/
def sampleReport : DataReport :=
  { df0_name := "src0", df1_name := "src1", df0_length := 1, df1_length := 1,
    matched_pairs := 1, differing_pairs := 1, unmatched0 := 0, unmatched1 := 0,
    source_ratios := [], group_ratios := [] }

/-- A report of two empty sources, used by witnesses. -/
def zeroReport : DataReport :=
  { df0_name := "src0", df1_name := "src1", df0_length := 0, df1_length := 0,
    matched_pairs := 0, differing_pairs := 0, unmatched0 := 0, unmatched1 := 0,
    source_ratios := [], group_ratios := [] }

/-- C2 (code bug): captured warnings are rendered only inside the
`if grouping_columns is not None` branch of `get_differences`, so when no
grouping columns were supplied no warning is ever displayed — while with
grouping columns the very same captured warning is displayed.  The spec makes
surfacing `warnings` an unconditional presentation-layer responsibility. -/
theorem warnings_dropped_without_grouping :
    (∀ (r : DataReport) (w : List String) (msg : String),
      DisplayItem.warningMsg msg ∉ get_differences r none w) ∧
    DisplayItem.warningMsg "duplicate key" ∈
      get_differences sampleReport (some ["id"]) ["duplicate key"] := by
  constructor
  · intro r w msg h
    simp [get_differences] at h
  · simp [get_differences]

theorem warnings_dropped_without_grouping_witness :
    DisplayItem.warningMsg "duplicate key" ∉
      get_differences sampleReport none ["duplicate key"] :=
  warnings_dropped_without_grouping.1 sampleReport ["duplicate key"] "duplicate key"

/-- C3: the displayed denominator is `df0_length + df1_length` when that sum
is positive and defaults to `1` when the sum is zero, so it is always a
positive number (no division by zero), and on two empty sources the displayed
delta ratio is `0` (for any report satisfying the spec's accounting
invariants). -/
theorem denominator_guard (r : DataReport) (g : Option (List String))
    (w : List String) (hv : r.valid) :
    0 < total_rows r ∧
    (r.df0_length + r.df1_length = 0 →
      total_rows r = 1 ∧
      ∀ n d, DisplayItem.metric n d ∈ get_differences r g w → d = 0) ∧
    (0 < r.df0_length + r.df1_length →
      total_rows r = r.df0_length + r.df1_length) := by
  refine ⟨?_, ?_, ?_⟩
  · unfold total_rows
    split <;> omega
  · intro h0
    have ht : total_rows r = 1 := by
      unfold total_rows
      rw [h0]
      simp
    refine ⟨ht, ?_⟩
    intro n d hmem
    have hz : get_number_of_row_differences r = 0 := by
      obtain ⟨h1, h2⟩ := hv
      unfold get_number_of_row_differences
      omega
    cases g with
    | none =>
      simp [get_differences] at hmem
      rw [hmem.2, hz, ht]
      norm_num
    | some gc =>
      simp [get_differences] at hmem
      rw [hmem.2, hz, ht]
      norm_num
  · intro hpos
    unfold total_rows
    rw [if_pos hpos]

theorem denominator_guard_witness :
    zeroReport.valid ∧ total_rows zeroReport = 1 ∧
    (∀ n d, DisplayItem.metric n d ∈ get_differences zeroReport none [] → d = 0) := by
  have hv : zeroReport.valid := by
    constructor <;> decide
  have h := (denominator_guard zeroReport none [] hv).2.1 rfl
  exact ⟨hv, h.1, h.2⟩

/-- C7: the per-grouping-column-value difference-ratio chart appears in the
rendered output if and only if grouping columns were supplied, and when it
appears it shows exactly `get_column_difference_ratio` of the report; with no
grouping columns that derivation is never invoked (no such widget exists in
the output). -/
theorem per_column_breakdown_iff_grouping (r : DataReport)
    (g : Option (List String)) (w : List String) :
    ((∃ rs, DisplayItem.ratioPerColumn rs ∈ get_differences r g w) ↔ g ≠ none) ∧
    (∀ rs, DisplayItem.ratioPerColumn rs ∈ get_differences r g w →
      rs = get_column_difference_ratio r) := by
  cases g with
  | none =>
    constructor
    · constructor
      · rintro ⟨rs, hmem⟩
        simp [get_differences] at hmem
      · intro h
        exact absurd rfl h
    · intro rs hmem
      simp [get_differences] at hmem
  | some gc =>
    constructor
    · constructor
      · intro _
        simp
      · intro _
        exact ⟨ get_column_difference_ratio r, by simp [get_differences]⟩
    · intro rs hmem
      simp [get_differences] at hmem
      exact hmem

theorem per_column_breakdown_iff_grouping_witness :
    ∃ rs, DisplayItem.ratioPerColumn rs ∈ get_differences sampleReport (some ["id"]) [] :=
  (per_column_breakdown_iff_grouping sampleReport (some ["id"]) []).1.mpr (by simp)

/-- C8: the displayed metric value and the displayed delta are consistent:
any rendered metric widget shows `get_number_of_row_differences` of the
report as its value, and its delta is that same number divided by the
`total_rows` denominator (times 100) — the two separate invocations of the
pure derivation agree. -/
theorem metric_delta_consistent (r : DataReport) (g : Option (List String))
    (w : List String) (n : ℕ) (d : ℚ)
    (hmem : DisplayItem.metric n d ∈ get_differences r g w) :
    n = get_number_of_row_differences r ∧
      d = (( get_number_of_row_differences r : ℚ)) / (total_rows r : ℚ) * 100 := by
  cases g with
  | none =>
    simp [get_differences] at hmem
    exact ⟨hmem.1, hmem.2⟩
  | some gc =>
    simp [get_differences] at hmem
    exact ⟨hmem.1, hmem.2⟩

theorem metric_delta_consistent_witness :
    (1 : ℕ) = get_number_of_row_differences sampleReport ∧
      (( get_number_of_row_differences sampleReport : ℚ)) / (total_rows sampleReport : ℚ)
          * 100 =
        (( get_number_of_row_differences sampleReport : ℚ)) / (total_rows sampleReport : ℚ)
          * 100 :=
  metric_delta_consistent sampleReport none [] 1
    ((( get_number_of_row_differences sampleReport : ℚ)) / (total_rows sampleReport : ℚ)
      * 100)
    (by simp [get_differences, get_number_of_row_differences, sampleReport])

/-- Example-tab inputs with both names empty, used by C9. -/
def exampleInputsEmptyNames : ExampleInputs :=
  { df0_name := "", df1_name := "", df0_data := "x", df1_data := "y",
    grouping_str := "", thresholds_str := "" }

/-- Upload-tab inputs whose first name is empty, used by C9. -/
def uploadInputsMissingName : UploadInputs :=
  { df0_name := "", df1_name := "n1", df0_file := some (), df1_file := some (),
    grouping_str := "", thresholds_str := "" }

/-- C9: in the upload tab the report is generated only when both files are
uploaded and both names are non-empty; when either check fails, an error box
is shown (an `st.error`, or the exception box for a malformed threshold
string that raised even earlier) and the run stops before any CSV is parsed
or any report is generated.  The example tab has no such validation, so a
report can be generated with both source names empty. -/
theorem upload_validation_gate :
    (∀ (inp : UploadInputs) (th : List (String × PyFloat))
        (g : Option (List String)) (a b : String),
      RunEvent.reportGenerated th g a b ∈ uploadRun inp →
        inp.df0_file.isSome = true ∧ inp.df1_file.isSome = true ∧
          inp.df0_name ≠ "" ∧ inp.df1_name ≠ "") ∧
    (∀ inp : UploadInputs,
      inp.df0_file = none ∨ inp.df1_file = none ∨
          inp.df0_name = "" ∨ inp.df1_name = "" →
        RunEvent.csvParsed ∉ uploadRun inp ∧
        (∀ th g a b, RunEvent.reportGenerated th g a b ∉ uploadRun inp) ∧
        ((∃ msg, RunEvent.errorShown msg ∈ uploadRun inp) ∨
          RunEvent.exceptionShown ∈ uploadRun inp)) ∧
    (∃ inp : ExampleInputs, inp.df0_name = "" ∧ inp.df1_name = "" ∧
      ∃ th g, RunEvent.reportGenerated th g "" "" ∈ exampleRun inp) := by
  refine ⟨?_, ?_, ?_⟩
  · intro inp th g a b h
    unfold uploadRun at h
    cases hth : parseThresholds inp.thresholds_str with
    | none => rw [hth] at h; simp at h
    | some th0 =>
      rw [hth] at h
      simp only at h
      split_ifs at h with h1 h2 <;> simp_all [Option.isSome_iff_ne_none]
  · intro inp hbad
    cases hth : parseThresholds inp.thresholds_str with
    | none =>
      simp only [uploadRun, hth]
      exact ⟨by simp, fun th g a b => by simp, Or.inr (by simp)⟩
    | some th0 =>
      simp only [uploadRun, hth]
      split_ifs with h1 h2
      · exact ⟨by simp, fun th g a b => by simp,
          Or.inl ⟨"Please upload both data sources", by simp⟩⟩
      · exact ⟨by simp, fun th g a b => by simp,
          Or.inl ⟨"Please enter names for both data sources", by simp⟩⟩
      · exfalso
        simp only [Bool.or_eq_true, Option.isNone_iff_eq_none, decide_eq_true_eq,
          not_or] at h1 h2
        rcases hbad with hb | hb | hb | hb
        · exact h1.1 hb
        · exact h1.2 hb
        · exact h2.1 hb
        · exact h2.2 hb
  · exact ⟨exampleInputsEmptyNames, rfl, rfl, [], none, by decide⟩

theorem upload_validation_gate_witness :
    RunEvent.csvParsed ∉ uploadRun uploadInputsMissingName :=
  (upload_validation_gate.2.1 uploadInputsMissingName (Or.inr (Or.inr (Or.inl rfl)))).1

end DataFingerprintTry
